import Mathlib

/-!
Verification of the email/password login and JWT issuance service
(`web.py`): the credential check, the uniform "Wrong credentials"
rejection, and the construction of the signed three-segment token.

The `User` model (`models.py`) and the `jwt` encoding library are
external to the source file; the definitions that stand for them are
marked `Modelled from the spec:` and follow the specification text.
Everything else is a direct shallow embedding of `web.py`.
-/

/-! ### Base64url encoding (token wire format)

The wire format is three base64url segments joined by dots.  Bytes are
modelled as natural numbers below 256, sextets as naturals below 64.
-/

/-- The 64-character base64url alphabet (RFC 4648 §5): `A-Z`, `a-z`,
`0-9`, `-`, `_`.  Note `.` is not in the alphabet. -/
def base64urlAlphabet : List Char :=
  ['A', 'B', 'C', 'D', 'E', 'F', 'G', 'H', 'I', 'J', 'K', 'L', 'M',
   'N', 'O', 'P', 'Q', 'R', 'S', 'T', 'U', 'V', 'W', 'X', 'Y', 'Z',
   'a', 'b', 'c', 'd', 'e', 'f', 'g', 'h', 'i', 'j', 'k', 'l', 'm',
   'n', 'o', 'p', 'q', 'r', 's', 't', 'u', 'v', 'w', 'x', 'y', 'z',
   '0', '1', '2', '3', '4', '5', '6', '7', '8', '9', '-', '_']

/-- Character standing for the sextet `n` (for `n < 64`). -/
def b64Char (n : Nat) : Char := base64urlAlphabet.getD n 'A'

/-- Position of a character in a character list (used to invert `b64Char`). -/
def findIdx : Char → List Char → Option Nat
  | _, [] => none
  | c, a :: rest => if c = a then some 0 else (findIdx c rest).map (· + 1)

/-- Regroup a byte list into sextets, 3 bytes at a time (unpadded
base64url, as produced for JWT segments). -/
def b64EncodeChunks : List Nat → List Nat
  | [] => []
  | [a] => [a / 4, a % 4 * 16]
  | [a, b] => [a / 4, a % 4 * 16 + b / 16, b % 16 * 4]
  | a :: b :: c :: rest =>
    a / 4 :: (a % 4 * 16 + b / 16) :: (b % 16 * 4 + c / 64) :: c % 64 :: b64EncodeChunks rest

/-- Regroup a sextet list back into bytes, 4 sextets at a time; fails on
lengths or trailing bits that no byte string produces. -/
def b64DecodeChunks : List Nat → Option (List Nat)
  | [] => some []
  | [_] => none
  | [x, y] => if y % 16 = 0 then some [x * 4 + y / 16] else none
  | [x, y, z] => if z % 4 = 0 then some [x * 4 + y / 16, y % 16 * 16 + z / 4] else none
  | x :: y :: z :: w :: rest =>
    (b64DecodeChunks rest).map
      (fun bs => (x * 4 + y / 16) :: (y % 16 * 16 + z / 4) :: (z % 4 * 64 + w) :: bs)

/-- Base64url-encode a byte list into characters (no padding). -/
def base64urlEncode (bs : List Nat) : List Char :=
  (b64EncodeChunks bs).map b64Char

/-- Map characters back to sextets; fails on a character outside the
alphabet. -/
def sextetsOf : List Char → Option (List Nat)
  | [] => some []
  | c :: rest =>
    match findIdx c base64urlAlphabet, sextetsOf rest with
    | some n, some ns => some (n :: ns)
    | _, _ => none

/-- Base64url-decode characters into a byte list. -/
def base64urlDecode (cs : List Char) : Option (List Nat) :=
  match sextetsOf cs with
  | none => none
  | some xs => b64DecodeChunks xs

theorem b64DecodeChunks_encode (bs : List Nat) (h : ∀ b ∈ bs, b < 256) :
    b64DecodeChunks (b64EncodeChunks bs) = some bs := by
  induction bs using b64EncodeChunks.induct with
  | case1 => rfl
  | case2 a =>
    have ha : a < 256 := h a (by simp)
    simp only [b64EncodeChunks, b64DecodeChunks]
    rw [if_pos (by omega)]
    congr 2
    omega
  | case3 a b =>
    have ha : a < 256 := h a (by simp)
    have hb : b < 256 := h b (by simp)
    simp only [b64EncodeChunks, b64DecodeChunks]
    rw [if_pos (by omega)]
    congr 1
    have e1 : a / 4 * 4 + (a % 4 * 16 + b / 16) / 16 = a := by omega
    have e2 : (a % 4 * 16 + b / 16) % 16 * 16 + b % 16 * 4 / 4 = b := by omega
    rw [e1, e2]
  | case4 a b c rest ih =>
    have ha : a < 256 := h a (by simp)
    have hb : b < 256 := h b (by simp)
    have hc : c < 256 := h c (by simp)
    have hrest : ∀ x ∈ rest, x < 256 := fun x hx => h x (by simp [hx])
    simp only [b64EncodeChunks, b64DecodeChunks, ih hrest]
    have e1 : a / 4 * 4 + (a % 4 * 16 + b / 16) / 16 = a := by omega
    have e2 : (a % 4 * 16 + b / 16) % 16 * 16 + (b % 16 * 4 + c / 64) / 4 = b := by omega
    have e3 : (b % 16 * 4 + c / 64) % 4 * 64 + c % 64 = c := by omega
    rw [e1, e2, e3]
    rfl

theorem b64EncodeChunks_lt (bs : List Nat) (h : ∀ b ∈ bs, b < 256) :
    ∀ x ∈ b64EncodeChunks bs, x < 64 := by
  induction bs using b64EncodeChunks.induct with
  | case1 => simp [b64EncodeChunks]
  | case2 a =>
    have ha : a < 256 := h a (by simp)
    simp only [b64EncodeChunks, List.mem_cons, List.not_mem_nil, or_false]
    rintro x (rfl | rfl) <;> omega
  | case3 a b =>
    have ha : a < 256 := h a (by simp)
    have hb : b < 256 := h b (by simp)
    simp only [b64EncodeChunks, List.mem_cons, List.not_mem_nil, or_false]
    rintro x (rfl | rfl | rfl) <;> omega
  | case4 a b c rest ih =>
    have ha : a < 256 := h a (by simp)
    have hb : b < 256 := h b (by simp)
    have hc : c < 256 := h c (by simp)
    have hrest : ∀ x ∈ rest, x < 256 := fun x hx => h x (by simp [hx])
    simp only [b64EncodeChunks, List.mem_cons]
    rintro x (rfl | rfl | rfl | rfl | hx)
    · omega
    · omega
    · omega
    · omega
    · exact ih hrest x hx

theorem findIdx_b64Char : ∀ n, n < 64 → findIdx (b64Char n) base64urlAlphabet = some n := by
  decide

theorem b64Char_mem : ∀ n, n < 64 → b64Char n ∈ base64urlAlphabet := by
  decide

theorem mem_alphabet_ne_dot : ∀ c ∈ base64urlAlphabet, c ≠ '.' := by
  decide

theorem mem_alphabet_lt : ∀ c ∈ base64urlAlphabet, c.toNat < 256 := by
  decide

theorem sextetsOf_map_b64Char (xs : List Nat) (h : ∀ x ∈ xs, x < 64) :
    sextetsOf (xs.map b64Char) = some xs := by
  induction xs with
  | nil => rfl
  | cons x xs ih =>
    have hx : x < 64 := h x (by simp)
    have hxs : ∀ y ∈ xs, y < 64 := fun y hy => h y (by simp [hy])
    simp only [List.map_cons, sextetsOf, findIdx_b64Char x hx, ih hxs]

theorem base64urlDecode_encode (bs : List Nat) (h : ∀ b ∈ bs, b < 256) :
    base64urlDecode (base64urlEncode bs) = some bs := by
  unfold base64urlDecode base64urlEncode
  rw [sextetsOf_map_b64Char _ (b64EncodeChunks_lt bs h)]
  exact b64DecodeChunks_encode bs h

theorem base64urlEncode_mem_alphabet (bs : List Nat) (h : ∀ b ∈ bs, b < 256) :
    ∀ c ∈ base64urlEncode bs, c ∈ base64urlAlphabet := by
  intro c hc
  obtain ⟨x, hx, rfl⟩ := List.mem_map.mp hc
  exact b64Char_mem x (b64EncodeChunks_lt bs h x hx)

theorem base64urlEncode_ne_dot (bs : List Nat) (h : ∀ b ∈ bs, b < 256) :
    ∀ c ∈ base64urlEncode bs, c ≠ '.' := by
  intro c hc
  exact mem_alphabet_ne_dot c (base64urlEncode_mem_alphabet bs h c hc)

/-! ### Splitting a token on `.` -/

/-- Split a character list on `.` (the segment separator of the compact
token format). -/
def splitOnDot : List Char → List (List Char)
  | [] => [[]]
  | c :: rest =>
    if c = '.' then [] :: splitOnDot rest
    else
      match splitOnDot rest with
      | [] => [[c]]
      | g :: gs => (c :: g) :: gs

theorem splitOnDot_no_dot (l : List Char) (h : ∀ c ∈ l, c ≠ '.') :
    splitOnDot l = [l] := by
  induction l with
  | nil => rfl
  | cons c rest ih =>
    have hc : c ≠ '.' := h c (by simp)
    have hrest : ∀ x ∈ rest, x ≠ '.' := fun x hx => h x (by simp [hx])
    simp only [splitOnDot, if_neg hc, ih hrest]

theorem splitOnDot_append_dot (l rest : List Char) (h : ∀ c ∈ l, c ≠ '.') :
    splitOnDot (l ++ '.' :: rest) = l :: splitOnDot rest := by
  induction l with
  | nil => simp [splitOnDot]
  | cons c l ih =>
    have hc : c ≠ '.' := h c (by simp)
    have hl : ∀ x ∈ l, x ≠ '.' := fun x hx => h x (by simp [hx])
    simp only [List.cons_append, splitOnDot, if_neg hc, List.append_eq, ih hl]

theorem splitOnDot_three (l1 l2 l3 : List Char)
    (h1 : ∀ c ∈ l1, c ≠ '.') (h2 : ∀ c ∈ l2, c ≠ '.') (h3 : ∀ c ∈ l3, c ≠ '.') :
    splitOnDot (l1 ++ '.' :: (l2 ++ '.' :: l3)) = [l1, l2, l3] := by
  rw [splitOnDot_append_dot _ _ h1, splitOnDot_append_dot _ _ h2, splitOnDot_no_dot _ h3]

/-! ### The claims set and its JSON serialization

`web.py` builds the payload dict `{'user_id': user.id, 'exp': now + delta}`
(lines 31-34).  `TokenClaims` is that claims set: it has exactly the two
fields.  PyJWT serializes the dict to compact JSON before signing; the
serializer and parser below follow the spec's description of the payload
segment ("payload (the TokenClaims)").  Timestamps are seconds since the
epoch, as integers.
-/

/-- The claims set built by `login`: exactly `user_id` and `exp`. -/
structure TokenClaims where
  user_id : Nat
  exp : Nat
deriving DecidableEq, Repr

/-- The ASCII character of the decimal digit `d`. -/
def digitChar (d : Nat) : Char := Char.ofNat (48 + d)

/-- Decimal representation of a natural number as characters. -/
def natToChars (n : Nat) : List Char :=
  if n = 0 then ['0'] else ((Nat.digits 10 n).map digitChar).reverse

/-- The literal `{"user_id":` opening the payload JSON object. -/
def litUser : List Char := ("\x7b\"user_id\":").toList

/-- The literal `,"exp":` between the two members of the payload object. -/
def litExp : List Char := (",\"exp\":").toList

/-- Compact JSON serialization of the claims set:
`{"user_id":<id>,"exp":<exp>}`. -/
def serializeClaims (c : TokenClaims) : List Char :=
  litUser ++ natToChars c.user_id ++ litExp ++ natToChars c.exp ++ ['\x7d']

/-- ASCII bytes of a character list. -/
def strBytes (l : List Char) : List Nat := l.map Char.toNat

/-- Bytes of the decimal representation of `n`. -/
def natBytes (n : Nat) : List Nat := strBytes (natToChars n)

/-- Bytes of the `{"user_id":` literal. -/
def litUserB : List Nat := strBytes litUser

/-- Bytes of the `,"exp":` literal. -/
def litExpB : List Nat := strBytes litExp

/-- Bytes of the serialized claims set. -/
def claimsBytes (c : TokenClaims) : List Nat := strBytes (serializeClaims c)

/-- Is the byte an ASCII decimal digit? -/
def isDigitByte (b : Nat) : Bool := decide (48 ≤ b) && decide (b ≤ 57)

/-- Consume an expected literal prefix, returning the remainder. -/
def dropLitB : List Nat → List Nat → Option (List Nat)
  | [], l => some l
  | _ :: _, [] => none
  | p :: ps, c :: cs => if c = p then dropLitB ps cs else none

/-- Split off the longest digit prefix. -/
def takeDigitsB : List Nat → List Nat × List Nat
  | [] => ([], [])
  | c :: rest =>
    if isDigitByte c then (c :: (takeDigitsB rest).1, (takeDigitsB rest).2)
    else ([], c :: rest)

/-- The number denoted by a digit-byte run. -/
def bytesToNat (l : List Nat) : Nat :=
  Nat.ofDigits 10 ((l.map (fun b => b - 48)).reverse)

/-- Parse the compact JSON `{"user_id":<id>,"exp":<exp>}` back into the
claims set; `none` on anything else. -/
def parseClaimsBytes (l : List Nat) : Option TokenClaims :=
  match dropLitB litUserB l with
  | none => none
  | some r1 =>
    match takeDigitsB r1 with
    | ([], _) => none
    | (ds1, r2) =>
      match dropLitB litExpB r2 with
      | none => none
      | some r3 =>
        match takeDigitsB r3 with
        | ([], _) => none
        | (ds2, r4) =>
          if r4 = [125] then some ⟨bytesToNat ds1, bytesToNat ds2⟩ else none

theorem digitChar_toNat : ∀ d, d < 10 → (digitChar d).toNat = 48 + d := by
  decide

theorem natBytes_digit (n : Nat) : ∀ b ∈ natBytes n, isDigitByte b = true := by
  intro b hb
  unfold natBytes strBytes natToChars at hb
  by_cases h0 : n = 0
  · subst h0
    simp at hb
    subst hb
    decide
  · rw [if_neg h0] at hb
    obtain ⟨c, hc, rfl⟩ := List.mem_map.mp hb
    rw [List.mem_reverse] at hc
    obtain ⟨d, hd, rfl⟩ := List.mem_map.mp hc
    have hd10 : d < 10 := Nat.digits_lt_base (by norm_num) hd
    rw [digitChar_toNat d hd10]
    simp only [isDigitByte, Bool.and_eq_true, decide_eq_true_eq]
    omega

theorem natBytes_ne_nil (n : Nat) : natBytes n ≠ [] := by
  unfold natBytes strBytes natToChars
  by_cases h0 : n = 0
  · subst h0
    simp
  · rw [if_neg h0]
    simp only [ne_eq, List.map_eq_nil_iff, List.reverse_eq_nil_iff]
    exact (Nat.digits_ne_nil_iff_ne_zero.mpr h0)

theorem bytesToNat_natBytes (n : Nat) : bytesToNat (natBytes n) = n := by
  unfold bytesToNat natBytes strBytes natToChars
  by_cases h0 : n = 0
  · subst h0
    simp [Nat.ofDigits]
  · rw [if_neg h0, List.map_reverse, List.map_reverse, List.reverse_reverse,
      List.map_map, List.map_map]
    have : (Nat.digits 10 n).map (((fun b => b - 48) ∘ Char.toNat) ∘ digitChar) =
        (Nat.digits 10 n).map id := by
      apply List.map_congr_left
      intro d hd
      have hd10 : d < 10 := Nat.digits_lt_base (by norm_num) hd
      simp only [Function.comp_apply, digitChar_toNat d hd10, id_eq]
      omega
    rw [this, List.map_id]
    exact Nat.ofDigits_digits 10 n

theorem dropLitB_append (p r : List Nat) : dropLitB p (p ++ r) = some r := by
  induction p with
  | nil => rfl
  | cons x p ih => simp [dropLitB, ih]

theorem takeDigitsB_append (d r : List Nat) (hd : ∀ b ∈ d, isDigitByte b = true)
    (hr : ∀ c, r.head? = some c → isDigitByte c = false) :
    takeDigitsB (d ++ r) = (d, r) := by
  induction d with
  | nil =>
    cases r with
    | nil => rfl
    | cons c l => simp [takeDigitsB, hr c rfl]
  | cons x d ih =>
    have hx : isDigitByte x = true := hd x (by simp)
    simp only [List.cons_append, takeDigitsB, hx, if_true, List.append_eq,
      ih (fun b hb => hd b (by simp [hb]))]

theorem claimsBytes_eq (c : TokenClaims) :
    claimsBytes c =
      litUserB ++ (natBytes c.user_id ++ (litExpB ++ (natBytes c.exp ++ [125]))) := by
  simp only [claimsBytes, serializeClaims, strBytes, natBytes, litUserB, litExpB,
    List.map_append, List.map_cons, List.map_nil, List.append_assoc]
  rfl

theorem parseClaimsBytes_serialize (c : TokenClaims) :
    parseClaimsBytes (claimsBytes c) = some c := by
  obtain ⟨a, b⟩ := c
  obtain ⟨a0, as, ha⟩ : ∃ x xs, natBytes a = x :: xs := by
    cases hne : natBytes a with
    | nil => exact absurd hne (natBytes_ne_nil a)
    | cons x xs => exact ⟨x, xs, rfl⟩
  obtain ⟨b0, bs, hb⟩ : ∃ x xs, natBytes b = x :: xs := by
    cases hne : natBytes b with
    | nil => exact absurd hne (natBytes_ne_nil b)
    | cons x xs => exact ⟨x, xs, rfl⟩
  have e1 : dropLitB litUserB (claimsBytes ⟨a, b⟩) =
      some (natBytes a ++ (litExpB ++ (natBytes b ++ [125]))) := by
    rw [claimsBytes_eq]
    exact dropLitB_append _ _
  have e2 : takeDigitsB (natBytes a ++ (litExpB ++ (natBytes b ++ [125]))) =
      (a0 :: as, litExpB ++ (natBytes b ++ [125])) := by
    rw [← ha]
    apply takeDigitsB_append _ _ (natBytes_digit a)
    intro x hx
    have h44 : 44 = x := by
      have hlit : litExpB = [44, 34, 101, 120, 112, 34, 58] := by decide
      rw [hlit] at hx
      simpa using hx
    subst h44
    decide
  have e3 : dropLitB litExpB (litExpB ++ (natBytes b ++ [125])) =
      some (natBytes b ++ [125]) := dropLitB_append _ _
  have e4 : takeDigitsB (natBytes b ++ [125]) = (b0 :: bs, [125]) := by
    rw [← hb]
    apply takeDigitsB_append _ _ (natBytes_digit b)
    intro x hx
    have h125 : 125 = x := by simpa using hx
    subst h125
    decide
  simp only [parseClaimsBytes, e1, e2, e3, e4, if_true, eq_self_iff_true]
  rw [← ha, ← hb, bytesToNat_natBytes, bytesToNat_natBytes]

/-! ### Signature and token encoding -/

/-- Modelled from the spec: the signature of the token, "HMAC over
header+payload using the shared secret" with a fixed algorithm
("HMAC-SHA256 equivalent").  The hash itself lives in the `jwt`
library, outside this repository's source; it is modelled as a concrete
deterministic keyed 32-byte digest.  The claims settled here rely only
on the signature being a deterministic function of (secret, message)
that the verifier recomputes and compares. -/
def hmacSHA256 (key msg : List Nat) : List Nat :=
  let seed := key.foldl (fun a b => (a * 131 + b + 17) % 4294967296) 5381
  let h := msg.foldl (fun a b => (a * 131 + b) % 4294967296) seed
  (List.range 32).map (fun i => (h / 2 ^ (i % 4 * 8) + i * 97) % 256)

theorem hmacSHA256_lt (key msg : List Nat) : ∀ b ∈ hmacSHA256 key msg, b < 256 := by
  intro b hb
  unfold hmacSHA256 at hb
  obtain ⟨i, _, rfl⟩ := List.mem_map.mp hb
  exact Nat.mod_lt _ (by norm_num)

/-- The JOSE header of the token: algorithm and type metadata,
`{"typ":"JWT","alg":<alg>}`. -/
def headerChars (alg : String) : List Char :=
  ("\x7b\"typ\":\"JWT\",\"alg\":\"").toList ++ alg.toList ++ ("\"\x7d").toList

/-- `web.py` line 11: the signing secret. -/
def JWT_SECRET : String := "secret"

/-- `web.py` line 12: the signing algorithm identifier. -/
def JWT_ALGORITHM : String := "HS256"

/-- `web.py` line 13: the configured token time-to-live, in seconds. -/
def JWT_EXP_DELTA_SECONDS : Nat := 20

/-- The signing input: base64url(header) `.` base64url(payload). -/
def signingInput (claims : TokenClaims) (alg : String) : List Char :=
  base64urlEncode (strBytes (headerChars alg)) ++ '.' :: base64urlEncode (claimsBytes claims)

/-- Modelled from the spec: `jwt.encode(payload, secret, algorithm)`
(`web.py` line 35, library code): serialize the claims, sign the
header+payload with the secret, and join the three base64url segments
with dots. -/
def jwt_encode (claims : TokenClaims) (secret alg : String) : String :=
  String.mk (signingInput claims alg ++ '.' ::
    base64urlEncode (hmacSHA256 (strBytes secret.toList) (strBytes (signingInput claims alg))))

/-- The error taxonomy of issuance and decoding, per the spec (§4.2,
§7): a configuration fault at signing, and the decoding failures. -/
inductive JwtError where
  | signingError
  | invalidStructure
  | badSignature
  | parseFailure
  | expiredSignature
deriving DecidableEq, Repr

/-- Modelled from the spec: the issuance boundary with its error
condition — "fails with `SigningError` only if the secret key is
absent/empty". -/
def jwt_encodeE (claims : TokenClaims) (secret alg : String) : Except JwtError String :=
  if secret = "" then .error .signingError else .ok (jwt_encode claims secret alg)

/-- Modelled from the spec: decoding and signature verification of a
token at time `now` by a consuming side: parse the exact three-segment
structure, recompute the HMAC over header+payload with the shared
secret and compare, then decode the payload and reject an expired
token. -/
def jwt_decode (token : String) (secret : String) (now : Nat) : Except JwtError TokenClaims :=
  match splitOnDot token.toList with
  | [hseg, pseg, sseg] =>
    if sseg = base64urlEncode
        (hmacSHA256 (strBytes secret.toList) (strBytes (hseg ++ '.' :: pseg))) then
      match base64urlDecode pseg with
      | none => .error .parseFailure
      | some bytes =>
        match parseClaimsBytes bytes with
        | none => .error .parseFailure
        | some claims =>
          if now ≤ claims.exp then .ok claims else .error .expiredSignature
    else .error .badSignature
  | _ => .error .invalidStructure

/-- The claims carried in the payload segment of a token, ignoring the
signature and expiration (used to state what a token asserts). -/
def payloadClaims (token : String) : Option TokenClaims :=
  match splitOnDot token.toList with
  | [_, pseg, _] =>
    match base64urlDecode pseg with
    | none => none
    | some bytes => parseClaimsBytes bytes
  | _ => none

theorem headerBytes_lt : ∀ b ∈ strBytes (headerChars JWT_ALGORITHM), b < 256 := by
  decide

theorem isDigitByte_lt (b : Nat) (h : isDigitByte b = true) : b < 256 := by
  simp only [isDigitByte, Bool.and_eq_true, decide_eq_true_eq] at h
  omega

theorem mem_litUserB_lt : ∀ b ∈ litUserB, b < 256 := by decide

theorem mem_litExpB_lt : ∀ b ∈ litExpB, b < 256 := by decide

theorem claimsBytes_lt (c : TokenClaims) : ∀ b ∈ claimsBytes c, b < 256 := by
  intro b hb
  rw [claimsBytes_eq] at hb
  simp only [List.mem_append, List.mem_singleton] at hb
  rcases hb with h | h | h | h | h
  · exact mem_litUserB_lt b h
  · exact isDigitByte_lt b (natBytes_digit c.user_id b h)
  · exact mem_litExpB_lt b h
  · exact isDigitByte_lt b (natBytes_digit c.exp b h)
  · omega

theorem token_toList (claims : TokenClaims) (secret : String) :
    (jwt_encode claims secret JWT_ALGORITHM).toList =
      base64urlEncode (strBytes (headerChars JWT_ALGORITHM)) ++ '.' ::
        (base64urlEncode (claimsBytes claims) ++ '.' ::
          base64urlEncode (hmacSHA256 (strBytes secret.toList)
            (strBytes (signingInput claims JWT_ALGORITHM)))) := by
  simp [jwt_encode, signingInput, List.append_assoc]

theorem splitOnDot_token (claims : TokenClaims) (secret : String) :
    splitOnDot (jwt_encode claims secret JWT_ALGORITHM).toList =
      [base64urlEncode (strBytes (headerChars JWT_ALGORITHM)),
       base64urlEncode (claimsBytes claims),
       base64urlEncode (hmacSHA256 (strBytes secret.toList)
         (strBytes (signingInput claims JWT_ALGORITHM)))] := by
  rw [token_toList]
  exact splitOnDot_three _ _ _
    (base64urlEncode_ne_dot _ headerBytes_lt)
    (base64urlEncode_ne_dot _ (claimsBytes_lt claims))
    (base64urlEncode_ne_dot _ (hmacSHA256_lt _ _))

theorem jwt_decode_encode (claims : TokenClaims) (secret : String) (now : Nat) :
    jwt_decode (jwt_encode claims secret JWT_ALGORITHM) secret now =
      if now ≤ claims.exp then Except.ok claims
      else Except.error JwtError.expiredSignature := by
  unfold jwt_decode
  rw [splitOnDot_token]
  simp only [signingInput, if_pos rfl, eq_self_iff_true, if_true,
    base64urlDecode_encode _ (claimsBytes_lt claims),
    parseClaimsBytes_serialize]

theorem payloadClaims_encode (claims : TokenClaims) (secret : String) :
    payloadClaims (jwt_encode claims secret JWT_ALGORITHM) = some claims := by
  unfold payloadClaims
  rw [splitOnDot_token]
  simp only [base64urlDecode_encode _ (claimsBytes_lt claims), parseClaimsBytes_serialize]

/-! ### The user repository and the login endpoint (`web.py`) -/

/-- Modelled from the spec: a stored user record, "{ id: unique
identifier, email: unique string, credential: opaque secret
representation }" (`models.User`, a module outside the source file).
The tutorial stores the plaintext password as the credential. -/
structure UserRecord where
  id : Nat
  email : String
  password : String
deriving DecidableEq, Repr

/-- Modelled from the spec: `User.objects.get(email=...)` — "look up
exactly one UserRecord by email".  `none` stands for the
`User.DoesNotExist` exception. -/
def objects_get (repo : List UserRecord) (email : String) : Option UserRecord :=
  repo.find? (fun u => u.email = email)

/-- Modelled from the spec: `User.objects.create(...)` — the external
provisioning step, appending a record with a fresh id. -/
def objects_create (repo : List UserRecord) (email password : String) : List UserRecord :=
  repo ++ [⟨repo.length + 1, email, password⟩]

/-- Modelled from the spec: `user.match_password(p)` — "compare password
against the stored credential".  `false` stands for the
`User.PasswordDoesNotMatch` exception. -/
def match_password (u : UserRecord) (password : String) : Bool :=
  u.password = password

/-- `web.py` line 9, run when the module is loaded and before any route
is registered: `User.objects.create(email='user@email.com',
password='password')` applied to the empty repository. -/
def initialRepo : List UserRecord :=
  objects_create [] ("user@email.com") ("password")

/-- An HTTP response as produced by `json_response`: status code, JSON
body, content type. -/
structure Response where
  status : Nat
  body : String
  content_type : String
deriving DecidableEq, Repr

/-- `json_response(body, **kwargs)` (`web.py` lines 16-19): the
JSON-encoded body with content type `text/json`. -/
def json_response (body : String) (status : Nat) : Response :=
  ⟨status, body, "text/json"⟩

/-- The uniform rejection (`web.py` line 29): HTTP 400,
`{"message": "Wrong credentials"}` (json.dumps default spacing). -/
def wrongCredentials : Response :=
  json_response ("\x7b\"message\": \"Wrong credentials\"\x7d") 400

/-- The success response (`web.py` line 36): HTTP 200,
`{"token": "<token>"}`. -/
def tokenResponse (token : String) : Response :=
  json_response (("\x7b\"token\": \"") ++ token ++ ("\"\x7d")) 200

/-- A Python exception escaping the `login` handler: `KeyError` from
`post_data['...']` on a missing field — it is not in the `except` tuple
of line 28 — or a signing fault (spec §4.2). -/
inductive EscapedError where
  | keyError
  | signingFault (e : JwtError)
deriving DecidableEq, Repr

/-- Terminal outcome of one request: an HTTP response, or an exception
propagating out of the handler. -/
inductive LoginOutcome where
  | response (r : Response)
  | uncaught (e : EscapedError)
deriving DecidableEq, Repr

/-- `User.objects.get` as an action on the repository state: a pure
read, returning the state unchanged. -/
def getByEmailS (email : String) : StateM (List UserRecord) (Option UserRecord) :=
  fun repo => (objects_get repo email, repo)

/-- The `login` handler (`web.py` lines 22-36), threaded through the
repository state to record its effect on the store.  Request fields are
`Option String` (a form field may be absent).  As in the source:
`post_data['email']` is read first (`KeyError` when missing), the
record is looked up (`DoesNotExist` is caught and answered with the
uniform rejection), `post_data['password']` is only read after a record
was found, the password is compared (`PasswordDoesNotMatch` caught
likewise), and on success the claims `{user_id, exp}` are signed. -/
def loginS : Option String → Option String → Nat → StateM (List UserRecord) LoginOutcome
  | none, _, _ => fun repo => (.uncaught .keyError, repo)
  | some email, passwordOpt, now => fun repo =>
    match getByEmailS email repo with
    | (none, repo1) => (.response wrongCredentials, repo1)
    | (some user, repo1) =>
      match passwordOpt with
      | none => (.uncaught .keyError, repo1)
      | some password =>
        if match_password user password then
          match jwt_encodeE ⟨user.id, now + JWT_EXP_DELTA_SECONDS⟩
              JWT_SECRET JWT_ALGORITHM with
          | .error e => (.uncaught (.signingFault e), repo1)
          | .ok tok => (.response (tokenResponse tok), repo1)
        else (.response wrongCredentials, repo1)

/-- The outcome of a `login` request against a given repository. -/
def login (repo : List UserRecord) (emailOpt passwordOpt : Option String) (now : Nat) :
    LoginOutcome :=
  (loginS emailOpt passwordOpt now repo).1

theorem jwt_encodeE_ok (c : TokenClaims) (alg : String) :
    jwt_encodeE c JWT_SECRET alg = .ok (jwt_encode c JWT_SECRET alg) := by
  unfold jwt_encodeE JWT_SECRET
  rw [if_neg (by decide)]

theorem login_missing_email (repo : List UserRecord) (pOpt : Option String) (now : Nat) :
    login repo none pOpt now = .uncaught .keyError := rfl

theorem login_not_found (repo : List UserRecord) (email : String) (pOpt : Option String)
    (now : Nat) (h : objects_get repo email = none) :
    login repo (some email) pOpt now = .response wrongCredentials := by
  simp only [login, loginS, getByEmailS, h]

theorem login_missing_password (repo : List UserRecord) (email : String) (u : UserRecord)
    (now : Nat) (h : objects_get repo email = some u) :
    login repo (some email) none now = .uncaught .keyError := by
  simp only [login, loginS, getByEmailS, h]

theorem login_wrong_password (repo : List UserRecord) (email password : String)
    (u : UserRecord) (now : Nat) (h : objects_get repo email = some u)
    (hm : match_password u password = false) :
    login repo (some email) (some password) now = .response wrongCredentials := by
  simp only [login, loginS, getByEmailS, h, hm, Bool.false_eq_true, if_false]

theorem login_ok (repo : List UserRecord) (email password : String)
    (u : UserRecord) (now : Nat) (h : objects_get repo email = some u)
    (hm : match_password u password = true) :
    login repo (some email) (some password) now =
      .response (tokenResponse
        (jwt_encode ⟨u.id, now + JWT_EXP_DELTA_SECONDS⟩ JWT_SECRET JWT_ALGORITHM)) := by
  simp only [login, loginS, getByEmailS, h, hm, if_true, jwt_encodeE_ok]

/-! ### The claims -/

/-- C1: for every registered user record and a login request whose email
and password match that record, the login operation succeeds and
returns HTTP 200 with a JSON body `{"token": <encoded token>}` whose
payload field `user_id` equals the stored record's id. -/
theorem C1_login_success_token_user_id (repo : List UserRecord) (email password : String)
    (u : UserRecord) (now : Nat)
    (h1 : objects_get repo email = some u) (h2 : u.password = password) :
    ∃ tok : String,
      login repo (some email) (some password) now =
        .response ⟨200, ("\x7b\"token\": \"") ++ tok ++ ("\"\x7d"), "text/json"⟩ ∧
      ∃ c : TokenClaims, payloadClaims tok = some c ∧ c.user_id = u.id := by
  refine ⟨jwt_encode ⟨u.id, now + JWT_EXP_DELTA_SECONDS⟩ JWT_SECRET JWT_ALGORITHM, ?_,
    ⟨u.id, now + JWT_EXP_DELTA_SECONDS⟩, payloadClaims_encode _ _, rfl⟩
  rw [login_ok repo email password u now h1 (by simp [match_password, h2])]
  rfl

theorem C1_witness :
    ∃ tok : String,
      login initialRepo (some ("user@email.com")) (some ("password")) 0 =
        .response ⟨200, ("\x7b\"token\": \"") ++ tok ++ ("\"\x7d"), "text/json"⟩ ∧
      ∃ c : TokenClaims, payloadClaims tok = some c ∧ c.user_id = 1 :=
  C1_login_success_token_user_id initialRepo ("user@email.com") ("password")
    ⟨1, "user@email.com", "password"⟩ 0 (by decide) rfl

/-- C2: a login request with an unregistered email and one with a
registered email but wrong password both get HTTP 400 with JSON body
`{"message": "Wrong credentials"}`, and the two responses are
byte-identical. -/
theorem C2_uniform_rejection (repo : List UserRecord) (e1 p1 e2 p2 : String)
    (u : UserRecord) (now1 now2 : Nat)
    (h1 : objects_get repo e1 = none) (h2 : objects_get repo e2 = some u)
    (h3 : u.password ≠ p2) :
    login repo (some e1) (some p1) now1 = .response wrongCredentials ∧
    login repo (some e2) (some p2) now2 = .response wrongCredentials ∧
    wrongCredentials.status = 400 ∧
    wrongCredentials.body = ("\x7b\"message\": \"Wrong credentials\"\x7d") ∧
    login repo (some e1) (some p1) now1 = login repo (some e2) (some p2) now2 := by
  have ha := login_not_found repo e1 (some p1) now1 h1
  have hb := login_wrong_password repo e2 p2 u now2 h2 (by simp [match_password, h3])
  exact ⟨ha, hb, rfl, rfl, by rw [ha, hb]⟩

theorem C2_witness :
    login initialRepo (some ("nobody@email.com")) (some ("x")) 0 = .response wrongCredentials ∧
    login initialRepo (some ("user@email.com")) (some ("wrong")) 0 = .response wrongCredentials ∧
    wrongCredentials.status = 400 ∧
    wrongCredentials.body = ("\x7b\"message\": \"Wrong credentials\"\x7d") ∧
    login initialRepo (some ("nobody@email.com")) (some ("x")) 0 =
      login initialRepo (some ("user@email.com")) (some ("wrong")) 0 :=
  C2_uniform_rejection initialRepo ("nobody@email.com") ("x") ("user@email.com") ("wrong")
    ⟨1, "user@email.com", "password"⟩ 0 0 (by decide) (by decide) (by decide)

/-- C3: for every verified identity, the token issuer signs exactly the
claims set `{ user_id: identity.id, exp: now + ttl }` — the payload
segment decodes to precisely that claims set and nothing else — and the
configured ttl `JWT_EXP_DELTA_SECONDS` is 20 seconds. -/
theorem C3_claims_set (repo : List UserRecord) (email password : String)
    (u : UserRecord) (now : Nat)
    (h1 : objects_get repo email = some u) (h2 : u.password = password) :
    login repo (some email) (some password) now =
      .response (tokenResponse
        (jwt_encode ⟨u.id, now + JWT_EXP_DELTA_SECONDS⟩ JWT_SECRET JWT_ALGORITHM)) ∧
    payloadClaims (jwt_encode ⟨u.id, now + JWT_EXP_DELTA_SECONDS⟩ JWT_SECRET JWT_ALGORITHM) =
      some ⟨u.id, now + JWT_EXP_DELTA_SECONDS⟩ ∧
    JWT_EXP_DELTA_SECONDS = 20 :=
  ⟨login_ok repo email password u now h1 (by simp [match_password, h2]),
   payloadClaims_encode _ _, rfl⟩

theorem C3_witness :
    login initialRepo (some ("user@email.com")) (some ("password")) 5 =
      .response (tokenResponse
        (jwt_encode ⟨1, 5 + JWT_EXP_DELTA_SECONDS⟩ JWT_SECRET JWT_ALGORITHM)) ∧
    payloadClaims (jwt_encode ⟨1, 5 + JWT_EXP_DELTA_SECONDS⟩ JWT_SECRET JWT_ALGORITHM) =
      some ⟨1, 5 + JWT_EXP_DELTA_SECONDS⟩ ∧
    JWT_EXP_DELTA_SECONDS = 20 :=
  C3_claims_set initialRepo ("user@email.com") ("password")
    ⟨1, "user@email.com", "password"⟩ 5 (by decide) rfl

/-- C4: decoding and signature-verifying (same secret) a token issued at
time `T` with ttl `D` succeeds at time `T + D - 1` and fails as expired
at time `T + D + 1`. -/
theorem C4_roundtrip_expiry (uid T D : Nat) (secret : String) :
    jwt_decode (jwt_encode ⟨uid, T + D⟩ secret JWT_ALGORITHM) secret (T + D - 1) =
      .ok ⟨uid, T + D⟩ ∧
    jwt_decode (jwt_encode ⟨uid, T + D⟩ secret JWT_ALGORITHM) secret (T + D + 1) =
      .error .expiredSignature := by
  constructor
  · rw [jwt_decode_encode]
    exact if_pos (show T + D - 1 ≤ T + D by omega)
  · rw [jwt_decode_encode]
    exact if_neg (show ¬(T + D + 1 ≤ T + D) by omega)

/-- C5: token issuance is deterministic — for a fixed tuple
(identity, now, ttl, secret), two invocations of the issuer produce
byte-identical token strings. -/
theorem C5_deterministic (id1 now1 ttl1 : Nat) (s1 : String)
    (id2 now2 ttl2 : Nat) (s2 : String)
    (h : (id1, now1, ttl1, s1) = (id2, now2, ttl2, s2)) :
    jwt_encode ⟨id1, now1 + ttl1⟩ s1 JWT_ALGORITHM =
      jwt_encode ⟨id2, now2 + ttl2⟩ s2 JWT_ALGORITHM := by
  simp only [Prod.mk.injEq] at h
  obtain ⟨rfl, rfl, rfl, rfl⟩ := h
  rfl

theorem C5_witness :
    jwt_encode ⟨1, 100 + 20⟩ ("secret") JWT_ALGORITHM =
      jwt_encode ⟨1, 100 + 20⟩ ("secret") JWT_ALGORITHM :=
  C5_deterministic 1 100 20 ("secret") 1 100 20 ("secret") rfl

/-- C6 (counterexample): a login request with a missing email field does
not get the uniform 400 rejection — the handler's `except` clause does
not catch the `KeyError` from `post_data['email']`, so the exception
escapes. -/
theorem C6_counterexample :
    login initialRepo none (some ("password")) 0 = .uncaught .keyError ∧
    login initialRepo none (some ("password")) 0 ≠ .response wrongCredentials := by
  have h0 : login initialRepo none (some ("password")) 0 = .uncaught .keyError := rfl
  refine ⟨h0, ?_⟩
  rw [h0]
  exact fun h => LoginOutcome.noConfusion h

/-- C6 (amended): a login request whose email or password field is the
empty string falls into the lookup-miss / password-mismatch path and
gets the uniform 400 `{"message": "Wrong credentials"}` rejection; a
request with the email field missing, or with the password field
missing when the email is registered, instead raises an uncaught
`KeyError` (a distinct outcome, not the uniform rejection). -/
theorem C6_empty_and_missing_fields (repo : List UserRecord) (email p : String)
    (u : UserRecord) (now : Nat)
    (h0 : objects_get repo ("") = none)
    (h1 : objects_get repo email = some u) (h2 : u.password ≠ "") :
    login repo (some ("")) (some p) now = .response wrongCredentials ∧
    login repo (some email) (some ("")) now = .response wrongCredentials ∧
    login repo none (some p) now = .uncaught .keyError ∧
    login repo (some email) none now = .uncaught .keyError :=
  ⟨login_not_found repo ("") (some p) now h0,
   login_wrong_password repo email ("") u now h1 (by simp [match_password, h2]),
   login_missing_email repo (some p) now,
   login_missing_password repo email u now h1⟩

theorem C6_witness :
    login initialRepo (some ("")) (some ("password")) 0 = .response wrongCredentials ∧
    login initialRepo (some ("user@email.com")) (some ("")) 0 = .response wrongCredentials ∧
    login initialRepo none (some ("password")) 0 = .uncaught .keyError ∧
    login initialRepo (some ("user@email.com")) none 0 = .uncaught .keyError :=
  C6_empty_and_missing_fields initialRepo ("user@email.com") ("password")
    ⟨1, "user@email.com", "password"⟩ 0 (by decide) (by decide) (by decide)

/-- C7: every token returned by a successful login is exactly three
base64url-encoded segments joined by `.`: the header (algorithm and
type metadata), the payload (the claims set), and the HMAC signature
over header+payload under the shared secret. -/
theorem C7_wire_format (repo : List UserRecord) (email password : String)
    (u : UserRecord) (now : Nat)
    (h1 : objects_get repo email = some u) (h2 : u.password = password) :
    ∃ tok : String, ∃ hseg pseg sseg : List Char,
      login repo (some email) (some password) now = .response (tokenResponse tok) ∧
      tok.toList = hseg ++ '.' :: (pseg ++ '.' :: sseg) ∧
      (∀ c ∈ hseg, c ∈ base64urlAlphabet) ∧
      (∀ c ∈ pseg, c ∈ base64urlAlphabet) ∧
      (∀ c ∈ sseg, c ∈ base64urlAlphabet) ∧
      hseg = base64urlEncode (strBytes (headerChars JWT_ALGORITHM)) ∧
      pseg = base64urlEncode (claimsBytes ⟨u.id, now + JWT_EXP_DELTA_SECONDS⟩) ∧
      sseg = base64urlEncode (hmacSHA256 (strBytes JWT_SECRET.toList)
        (strBytes (hseg ++ '.' :: pseg))) := by
  refine ⟨_, _, _, _, login_ok repo email password u now h1 (by simp [match_password, h2]),
    token_toList _ _,
    base64urlEncode_mem_alphabet _ headerBytes_lt,
    base64urlEncode_mem_alphabet _ (claimsBytes_lt _),
    base64urlEncode_mem_alphabet _ (hmacSHA256_lt _ _),
    rfl, rfl, rfl⟩

theorem C7_witness :
    ∃ tok : String, ∃ hseg pseg sseg : List Char,
      login initialRepo (some ("user@email.com")) (some ("password")) 0 =
        .response (tokenResponse tok) ∧
      tok.toList = hseg ++ '.' :: (pseg ++ '.' :: sseg) ∧
      (∀ c ∈ hseg, c ∈ base64urlAlphabet) ∧
      (∀ c ∈ pseg, c ∈ base64urlAlphabet) ∧
      (∀ c ∈ sseg, c ∈ base64urlAlphabet) ∧
      hseg = base64urlEncode (strBytes (headerChars JWT_ALGORITHM)) ∧
      pseg = base64urlEncode (claimsBytes ⟨1, 0 + JWT_EXP_DELTA_SECONDS⟩) ∧
      sseg = base64urlEncode (hmacSHA256 (strBytes JWT_SECRET.toList)
        (strBytes (hseg ++ '.' :: pseg))) :=
  C7_wire_format initialRepo ("user@email.com") ("password")
    ⟨1, "user@email.com", "password"⟩ 0 (by decide) rfl

/-- C8: issuance fails with a signing error only if the signing secret
is the absent/empty string; with a non-empty secret (as configured) the
per-request signing step never fails. -/
theorem C8_signing_error_only_empty_secret (claims : TokenClaims) (secret alg : String) :
    (∀ e, jwt_encodeE claims secret alg = .error e →
      secret = "" ∧ e = JwtError.signingError) ∧
    (secret ≠ "" → jwt_encodeE claims secret alg = .ok (jwt_encode claims secret alg)) := by
  constructor
  · intro e he
    unfold jwt_encodeE at he
    by_cases hs : secret = ""
    · rw [if_pos hs] at he
      refine ⟨hs, ?_⟩
      cases he
      rfl
    · rw [if_neg hs] at he
      exact Except.noConfusion he
  · intro hs
    unfold jwt_encodeE
    rw [if_neg hs]

theorem C8_witness :
    jwt_encodeE ⟨1, 20⟩ ("secret") ("HS256") = .ok (jwt_encode ⟨1, 20⟩ ("secret") ("HS256")) :=
  (C8_signing_error_only_empty_secret ⟨1, 20⟩ ("secret") ("HS256")).2 (by decide)

/-- C9: handling a login request is a pure read of the user repository —
for every request the outcome is a function of the stored records, the
repository state after the request is identical to the state before,
and nothing (in particular no issued token) is stored. -/
theorem C9_pure_read (emailOpt passwordOpt : Option String) (now : Nat)
    (repo : List UserRecord) :
    loginS emailOpt passwordOpt now repo = (login repo emailOpt passwordOpt now, repo) := by
  have h2 : (loginS emailOpt passwordOpt now repo).2 = repo := by
    cases emailOpt with
    | none => rfl
    | some email =>
      simp only [loginS, getByEmailS]
      cases objects_get repo email with
      | none => rfl
      | some user =>
        cases passwordOpt with
        | none => rfl
        | some password =>
          cases hm : match_password user password with
          | false => simp [hm]
          | true =>
            simp only [hm, if_true]
            cases jwt_encodeE ⟨user.id, now + JWT_EXP_DELTA_SECONDS⟩
              JWT_SECRET JWT_ALGORITHM <;> rfl
  exact Prod.ext rfl h2

/-- C10: loading the service module runs
`User.objects.create(email='user@email.com', password='password')`
before any request is handled, so the startup repository contains
exactly that record. -/
theorem C10_module_seed :
    initialRepo = [⟨1, "user@email.com", "password"⟩] ∧
    ∃ u ∈ initialRepo, u.email = "user@email.com" ∧ u.password = "password" := by
  refine ⟨rfl, ⟨1, "user@email.com", "password"⟩, ?_, rfl, rfl⟩
  simp [initialRepo, objects_create]
